import Mathlib

/-!
Verification development for the desktop bridge in
`src/desktop/src-tauri/src/main.rs`.

The bridge exchanges newline-delimited JSON frames with a worker process
over its stdin/stdout pipes, guarded by a mutex.  We shallowly embed:

* a JSON value type together with a serializer and a parser that model
  the behaviour of `serde_json` on the shapes this program uses
  (diagnostic texts are the model's own wording; the program only relies
  on *whether* parsing fails, and on splicing the diagnostic into its
  `format!` string);
* the wire structs `BackendRequest` / `BackendResponse` with the
  derived serde encodings (`skip_serializing_if = "Option::is_none"`,
  optional fields tolerated as missing or null, unknown fields ignored);
* `send_to_backend` as a function over an explicit handle state
  (`Option Child`), also producing the list of pipe events it performs;
* the result-shaping code of each `#[tauri::command]`;
* a small labelled transition system for N concurrent callers contending
  on the mutex, whose per-caller program is exactly the body of
  `send_to_backend` (acquire, write request line, read response line,
  release).
-/

namespace DocQA

/-- JSON values, modelling `serde_json::Value`.  Numbers are modelled as
rationals (the program never relies on float rounding; request payloads
contain no numbers at all). -/
inductive Json where
  | null : Json
  | bool (b : Bool) : Json
  | num (q : Rat) : Json
  | str (s : String) : Json
  | arr (xs : List Json) : Json
  | obj (kvs : List (String × Json)) : Json

/-- First match wins, like `serde_json`'s map lookup on the shapes used
here (the worker never sends duplicate keys). -/
def jLookup (k : String) : List (String × Json) → Option Json
  | [] => none
  | (k2, v) :: rest => if k2 = k then some v else jLookup k rest

/-- `Value::get(key)`: `Some` only on objects holding the key. -/
def jGet (j : Json) (k : String) : Option Json :=
  match j with
  | Json.obj kvs => jLookup k kvs
  | _ => none

/-- `Value::as_str`. -/
def Json.as_str : Json → Option String
  | Json.str s => some s
  | _ => none

/-- `Value::as_f64`: any JSON number yields a number. -/
def Json.as_f64 : Json → Option Rat
  | Json.num q => some q
  | _ => none

/-- Lower-case hex digit, as printed by `serde_json`'s `\u00XX` escapes. -/
def hexDigit (n : Nat) : Char :=
  if n < 10 then Char.ofNat (48 + n) else Char.ofNat (87 + n)

/-- The escape `serde_json` applies to one character inside a JSON string:
quote and backslash are escaped, control characters below 0x20 use the
short escapes or `\u00XX`, everything else is passed through. -/
def escapeChar (c : Char) : List Char :=
  if c = '\"' then ['\\', '\"']
  else if c = '\\' then ['\\', '\\']
  else if c = '\n' then ['\\', 'n']
  else if c = '\r' then ['\\', 'r']
  else if c = '\t' then ['\\', 't']
  else if c = '\x08' then ['\\', 'b']
  else if c = '\x0c' then ['\\', 'f']
  else if c.toNat < 32 then
    ['\\', 'u', '0', '0', hexDigit (c.toNat / 16), hexDigit (c.toNat % 16)]
  else [c]

def escapeChars : List Char → List Char
  | [] => []
  | c :: rest => escapeChar c ++ escapeChars rest

/-- A JSON string literal: quoted, body escaped. -/
def escapeString (s : String) : String :=
  String.mk ('\"' :: escapeChars s.data ++ ['\"'])

/- ## JSON text parser (model of `serde_json::from_str`'s lexical layer) -/

def isWsChar (c : Char) : Bool :=
  c = ' ' || c = '\t' || c = '\n' || c = '\r'

def skipWs (cs : List Char) : List Char := cs.dropWhile isWsChar

def isDigitChar (c : Char) : Bool := 48 ≤ c.toNat && c.toNat ≤ 57

def hexValue (c : Char) : Option Nat :=
  if 48 ≤ c.toNat && c.toNat ≤ 57 then some (c.toNat - 48)
  else if 97 ≤ c.toNat && c.toNat ≤ 102 then some (c.toNat - 87)
  else if 65 ≤ c.toNat && c.toNat ≤ 70 then some (c.toNat - 55)
  else none

def unescapeChar (c : Char) : Option Char :=
  if c = '\"' then some '\"'
  else if c = '\\' then some '\\'
  else if c = '/' then some '/'
  else if c = 'b' then some '\x08'
  else if c = 'f' then some '\x0c'
  else if c = 'n' then some '\n'
  else if c = 'r' then some '\r'
  else if c = 't' then some '\t'
  else none

/-- Parse the body of a JSON string after the opening quote; returns the
decoded characters and the remainder after the closing quote. -/
def parseStringRest : List Char → Except String (List Char × List Char)
  | [] => Except.error "EOF while parsing a string"
  | c :: rest =>
    if c = '\"' then Except.ok ([], rest)
    else if c = '\\' then
      match rest with
      | [] => Except.error "EOF while parsing a string"
      | e :: rest2 =>
        if e = 'u' then
          match rest2 with
          | h1 :: h2 :: h3 :: h4 :: rest3 =>
            match hexValue h1, hexValue h2, hexValue h3, hexValue h4 with
            | some a, some b, some c2, some d =>
              (parseStringRest rest3).map
                (fun p => (Char.ofNat (((a * 16 + b) * 16 + c2) * 16 + d) :: p.1, p.2))
            | _, _, _, _ => Except.error "invalid hex escape"
          | _ => Except.error "EOF in unicode escape"
        else
          match unescapeChar e with
          | some u => (parseStringRest rest2).map (fun p => (u :: p.1, p.2))
          | none => Except.error "invalid escape"
    else (parseStringRest rest).map (fun p => (c :: p.1, p.2))

def digitsToNat (ds : List Char) : Nat :=
  ds.foldl (fun a c => a * 10 + (c.toNat - 48)) 0

/-- Parse a JSON number starting at `cs` (integer part, optional fraction,
optional exponent), as a rational. -/
def parseNumberFrom (cs : List Char) : Except String (Json × List Char) :=
  let neg : Bool := match cs with | '-' :: _ => true | _ => false
  let cs1 : List Char := match cs with | '-' :: r => r | _ => cs
  let ds := cs1.takeWhile isDigitChar
  let cs2 := cs1.dropWhile isDigitChar
  if ds = [] then Except.error "invalid number" else
  let step2 : List Char × List Char :=
    match cs2 with
    | '.' :: r => (r.takeWhile isDigitChar, r.dropWhile isDigitChar)
    | _ => ([], cs2)
  let fds := step2.1
  let cs3 : List Char := match cs2 with | '.' :: _ => step2.2 | _ => cs2
  if (match cs2 with | '.' :: _ => fds.isEmpty | _ => false : Bool) then
    Except.error "invalid number"
  else
    let expPart : Option (Bool × List Char × List Char) :=
      match cs3 with
      | 'e' :: '-' :: r => some (true, r.takeWhile isDigitChar, r.dropWhile isDigitChar)
      | 'e' :: '+' :: r => some (false, r.takeWhile isDigitChar, r.dropWhile isDigitChar)
      | 'e' :: r => some (false, r.takeWhile isDigitChar, r.dropWhile isDigitChar)
      | 'E' :: '-' :: r => some (true, r.takeWhile isDigitChar, r.dropWhile isDigitChar)
      | 'E' :: '+' :: r => some (false, r.takeWhile isDigitChar, r.dropWhile isDigitChar)
      | 'E' :: r => some (false, r.takeWhile isDigitChar, r.dropWhile isDigitChar)
      | _ => none
    match expPart with
    | some (eneg, eds, cs4) =>
      if eds = [] then Except.error "invalid number"
      else
        let mantissa : Int :=
          (if neg then -1 else 1) * Int.ofNat (digitsToNat ds * 10 ^ fds.length + digitsToNat fds)
        let base : Rat := (mantissa : Rat) / ((10 : Rat) ^ fds.length)
        let e : Nat := digitsToNat eds
        let v : Rat := if eneg then base / (10 : Rat) ^ e else base * (10 : Rat) ^ e
        Except.ok (Json.num v, cs4)
    | none =>
      let mantissa : Int :=
        (if neg then -1 else 1) * Int.ofNat (digitsToNat ds * 10 ^ fds.length + digitsToNat fds)
      let v : Rat := (mantissa : Rat) / ((10 : Rat) ^ fds.length)
      Except.ok (Json.num v, cs3)

def expectLit (lit : List Char) (j : Json) (cs : List Char) :
    Except String (Json × List Char) :=
  if lit.isPrefixOf cs then Except.ok (j, cs.drop lit.length)
  else Except.error "invalid literal"

mutual

/-- Parse one JSON value (leading whitespace allowed); fuel bounds the
recursion depth and is chosen large enough at the top entry point. -/
def parseValue : Nat → List Char → Except String (Json × List Char)
  | 0, _ => Except.error "recursion limit exceeded"
  | Nat.succ fuel, cs =>
    match skipWs cs with
    | [] => Except.error "EOF while parsing a value"
    | c :: rest =>
      if c = '\"' then
        (parseStringRest rest).map (fun p => (Json.str (String.mk p.1), p.2))
      else if c = '[' then
        match skipWs rest with
        | ']' :: r2 => Except.ok (Json.arr [], r2)
        | _ =>
          match parseValue fuel rest with
          | Except.ok (v, r2) => parseArrayRest fuel r2 [v]
          | Except.error e => Except.error e
      else if c = '\x7b' then
        match skipWs rest with
        | '\x7d' :: r2 => Except.ok (Json.obj [], r2)
        | _ => parseMembers fuel rest []
      else if c = 't' then expectLit ['r', 'u', 'e'] (Json.bool true) rest
      else if c = 'f' then expectLit ['a', 'l', 's', 'e'] (Json.bool false) rest
      else if c = 'n' then expectLit ['u', 'l', 'l'] Json.null rest
      else if c = '-' || isDigitChar c then parseNumberFrom (c :: rest)
      else Except.error "expected value"

/-- After one array element: expect `,` and another element, or `]`. -/
def parseArrayRest : Nat → List Char → List Json → Except String (Json × List Char)
  | 0, _, _ => Except.error "recursion limit exceeded"
  | Nat.succ fuel, cs, acc =>
    match skipWs cs with
    | ']' :: r => Except.ok (Json.arr acc.reverse, r)
    | ',' :: r =>
      match parseValue fuel r with
      | Except.ok (v, r2) => parseArrayRest fuel r2 (v :: acc)
      | Except.error e => Except.error e
    | _ => Except.error "expected comma or closing bracket"

/-- Members of a non-empty object, starting at the first key. -/
def parseMembers : Nat → List Char → List (String × Json) →
    Except String (Json × List Char)
  | 0, _, _ => Except.error "recursion limit exceeded"
  | Nat.succ fuel, cs, acc =>
    match skipWs cs with
    | [] => Except.error "EOF while parsing an object"
    | c :: r =>
      if c = '\"' then
        match parseStringRest r with
        | Except.error e => Except.error e
        | Except.ok (k, r2) =>
          match skipWs r2 with
          | ':' :: r3 =>
            match parseValue fuel r3 with
            | Except.error e => Except.error e
            | Except.ok (v, r4) =>
              match skipWs r4 with
              | ',' :: r5 => parseMembers fuel r5 ((String.mk k, v) :: acc)
              | '\x7d' :: r5 => Except.ok (Json.obj ((String.mk k, v) :: acc).reverse, r5)
              | _ => Except.error "expected comma or closing brace"
          | _ => Except.error "expected colon"
      else Except.error "key must be a string"

end

/-- `serde_json::from_str` to a `Value`: one JSON document, surrounding
whitespace tolerated, trailing garbage rejected. -/
def json_from_str (s : String) : Except String Json :=
  match parseValue (s.data.length * 2 + 8) s.data with
  | Except.ok (j, rest) =>
    if skipWs rest = [] then Except.ok j else Except.error "trailing characters"
  | Except.error e => Except.error e

/- ## Wire structs (main.rs lines 14-59) -/

/-- `struct Document` (main.rs lines 14-20); `chunks: i32` is an integer. -/
structure Document where
  name : String
  path : String
  chunks : Int
  status : String

/-- `struct Source` (main.rs lines 22-28); `score: f64` modelled as `Rat`. -/
structure Source where
  document : String
  page : Option Int
  score : Rat
  snippet : String

/-- `struct InitResponse` (main.rs lines 30-34). -/
structure InitResponse where
  ready : Bool
  documents : List Document

/-- `struct AnswerResponse` (main.rs lines 36-41). -/
structure AnswerResponse where
  answer : String
  sources : List Source
  confidence : Rat

/-- `struct BackendRequest` (main.rs lines 43-52): a command tag plus three
optional fields, each annotated `skip_serializing_if = "Option::is_none"`. -/
structure BackendRequest where
  command : String
  question : Option String
  paths : Option (List String)
  name : Option String

/-- `struct BackendResponse` (main.rs lines 54-59). -/
structure BackendResponse where
  success : Bool
  data : Option Json
  error : Option String

/- ## Request encoding (derived `Serialize` + `serde_json::to_string`) -/

/-- Serialized tail of a string array after its first element. -/
def encode_strings_rest : List String → String
  | [] => ""
  | x :: xs => "," ++ escapeString x ++ encode_strings_rest xs

/-- `serde_json::to_string` of a `Vec<String>`. -/
def encode_string_array (xs : List String) : String :=
  match xs with
  | [] => "[]"
  | x :: rest => "[" ++ escapeString x ++ encode_strings_rest rest ++ "]"

/-- Serialized `question` field (omitted when `None`, per
`skip_serializing_if`). -/
def question_part (q : Option String) : String :=
  match q with
  | some v => ",\"question\":" ++ escapeString v
  | none => ""

/-- Serialized `paths` field (omitted when `None`). -/
def paths_part (p : Option (List String)) : String :=
  match p with
  | some ps => ",\"paths\":" ++ encode_string_array ps
  | none => ""

/-- Serialized `name` field (omitted when `None`). -/
def name_part (nm : Option String) : String :=
  match nm with
  | some v => ",\"name\":" ++ escapeString v
  | none => ""

/-- `serde_json::to_string(&request)` (main.rs line 68): fields in
declaration order, `None` fields omitted entirely, no whitespace. -/
def request_json (r : BackendRequest) : String :=
  "\x7b\"command\":" ++ escapeString r.command
  ++ question_part r.question
  ++ paths_part r.paths
  ++ name_part r.name
  ++ "\x7d"

/- ## Value-level codec for `BackendRequest` (derived Serialize/Deserialize) -/

/-- The JSON object produced for a request: `command` always present,
optional fields present exactly when populated (never null). -/
def BackendRequest.to_json (r : BackendRequest) : Json :=
  Json.obj ([("command", Json.str r.command)]
    ++ (match r.question with
        | some q => [("question", Json.str q)]
        | none => [])
    ++ (match r.paths with
        | some ps => [("paths", Json.arr (ps.map Json.str))]
        | none => [])
    ++ (match r.name with
        | some nm => [("name", Json.str nm)]
        | none => []))

/-- Decode a JSON array of strings (serde `Vec<String>`). -/
def decodeStringList : List Json → Except String (List String)
  | [] => Except.ok []
  | Json.str s :: rest => (decodeStringList rest).map (fun l => s :: l)
  | _ :: _ => Except.error "invalid type: expected a string"

/-- Derived `Deserialize` for `BackendRequest`: `command` required,
`Option` fields tolerate a missing key or `null`, unknown keys ignored. -/
def BackendRequest.from_json (j : Json) : Except String BackendRequest :=
  match j with
  | Json.obj kvs =>
    (match jLookup "command" kvs with
     | some (Json.str c) => Except.ok c
     | some _ => Except.error "invalid type for field command"
     | none => Except.error "missing field command").bind (fun c =>
    (match jLookup "question" kvs with
     | none => Except.ok none
     | some Json.null => Except.ok none
     | some (Json.str q) => Except.ok (some q)
     | some _ => Except.error "invalid type for field question").bind (fun q =>
    (match jLookup "paths" kvs with
     | none => Except.ok none
     | some Json.null => Except.ok none
     | some (Json.arr xs) => (decodeStringList xs).map some
     | some _ => Except.error "invalid type for field paths").bind (fun p =>
    (match jLookup "name" kvs with
     | none => Except.ok none
     | some Json.null => Except.ok none
     | some (Json.str nm) => Except.ok (some nm)
     | some _ => Except.error "invalid type for field name").map (fun nm =>
    BackendRequest.mk c q p nm))))
  | _ => Except.error "invalid type: expected struct BackendRequest"

/- ## Envelope decoding (derived `Deserialize` for `BackendResponse`) -/

def BackendResponse.from_json (j : Json) : Except String BackendResponse :=
  match j with
  | Json.obj kvs =>
    (match jLookup "success" kvs with
     | some (Json.bool b) => Except.ok b
     | some _ => Except.error "invalid type for field success"
     | none => Except.error "missing field success").bind (fun b =>
    (match jLookup "data" kvs with
     | none => Except.ok (none : Option Json)
     | some Json.null => Except.ok none
     | some v => Except.ok (some v)).bind (fun d =>
    (match jLookup "error" kvs with
     | none => Except.ok (none : Option String)
     | some Json.null => Except.ok none
     | some (Json.str s) => Except.ok (some s)
     | some _ => Except.error "invalid type for field error").map (fun e =>
    BackendResponse.mk b d e)))
  | _ => Except.error "invalid type: expected struct BackendResponse"

/-- `serde_json::from_str::<BackendResponse>(&line)` (main.rs line 78). -/
def backend_response_from_str (line : String) : Except String BackendResponse :=
  match json_from_str line with
  | Except.ok j => BackendResponse.from_json j
  | Except.error e => Except.error e

/- ## The worker handle and `send_to_backend` (main.rs lines 61-79) -/

/-- The stored `Child`: its stdin pipe (bytes written so far; `none` if the
handle is absent) and its stdout pipe (bytes available before EOF; a
stream the worker closed with pending bytes is the finite list of those
bytes). -/
structure Child where
  stdin : Option (List Char)
  stdout : Option (List Char)

/-- Observable pipe operations performed by one exchange. -/
inductive PipeEv where
  | write (s : String)
  | flush
  | read (s : String)

/-- `BufReader::read_line`: consume up to and including the first newline;
at EOF return whatever was available (no error).  Yields the line (with
its terminator when present) and the rest of the stream. -/
def splitLine : List Char → List Char × List Char
  | [] => ([], [])
  | c :: rest =>
    if c = '\n' then ([c], rest)
    else
      let p := splitLine rest
      (c :: p.1, p.2)

/-- `send_to_backend` (main.rs lines 61-79), as a function of the handle
state (the contents of the mutex) returning the result, the new state and
the pipe events performed, in order.  The mutex acquisition itself is
modelled separately (see the bridge transition system below); this is the
body executed under the lock. -/
def send_to_backend (proc : Option Child) (request : BackendRequest) :
    Except String BackendResponse × Option Child × List PipeEv :=
  match proc with
  | none => (Except.error "Backend not started", none, [])
  | some child =>
    match child.stdin with
    | none => (Except.error "No stdin", some child, [])
    | some inBuf =>
      let rj := request_json request
      let inBuf2 := inBuf ++ (rj ++ "\n").data
      match child.stdout with
      | none =>
        (Except.error "No stdout", some (Child.mk (some inBuf2) none),
         [PipeEv.write (rj ++ "\n"), PipeEv.flush])
      | some outBuf =>
        let p := splitLine outBuf
        let line : String := String.mk p.1
        let child2 : Child := Child.mk (some inBuf2) (some p.2)
        let evs := [PipeEv.write (rj ++ "\n"), PipeEv.flush, PipeEv.read line]
        match backend_response_from_str line with
        | Except.ok resp => (Except.ok resp, some child2, evs)
        | Except.error e =>
          (Except.error ("Parse error: " ++ e ++ " - Response: " ++ line),
           some child2, evs)

/- ## Domain decoding (`serde_json::from_value` for the derived structs) -/

/-- serde `i32`: an integral JSON number within the i32 range. -/
def decodeI32 (j : Json) : Except String Int :=
  match j with
  | Json.num q =>
    if q.den = 1 ∧ -(2 ^ 31) ≤ q.num ∧ q.num < 2 ^ 31 then Except.ok q.num
    else Except.error "invalid value for i32"
  | _ => Except.error "invalid type: expected i32"

def reqField (k : String) (kvs : List (String × Json)) : Except String Json :=
  match jLookup k kvs with
  | some v => Except.ok v
  | none => Except.error ("missing field " ++ k)

def decodeStringField (j : Json) : Except String String :=
  match j with
  | Json.str s => Except.ok s
  | _ => Except.error "invalid type: expected a string"

/-- Derived `Deserialize` for `Document`: all four fields required. -/
def decodeDocument (j : Json) : Except String Document :=
  match j with
  | Json.obj kvs =>
    (reqField "name" kvs).bind (fun v => (decodeStringField v).bind (fun nm =>
    (reqField "path" kvs).bind (fun v2 => (decodeStringField v2).bind (fun p =>
    (reqField "chunks" kvs).bind (fun v3 => (decodeI32 v3).bind (fun ch =>
    (reqField "status" kvs).bind (fun v4 => (decodeStringField v4).map (fun st =>
    Document.mk nm p ch st))))))))
  | _ => Except.error "invalid type: expected struct Document"

/-- serde `Vec<Document>`. -/
def decodeDocumentList (j : Json) : Except String (List Document) :=
  match j with
  | Json.arr xs => xs.mapM decodeDocument
  | _ => Except.error "invalid type: expected a sequence"

/-- Derived `Deserialize` for `Source`: `page` is `Option<i32>` (missing or
null tolerated), `score: f64` accepts any number. -/
def decodeSource (j : Json) : Except String Source :=
  match j with
  | Json.obj kvs =>
    (reqField "document" kvs).bind (fun v => (decodeStringField v).bind (fun d =>
    (match jLookup "page" kvs with
     | none => Except.ok (none : Option Int)
     | some Json.null => Except.ok none
     | some v2 => (decodeI32 v2).map some).bind (fun pg =>
    (reqField "score" kvs).bind (fun v3 =>
    (match v3 with
     | Json.num q => Except.ok q
     | _ => Except.error "invalid type: expected f64").bind (fun sc =>
    (reqField "snippet" kvs).bind (fun v4 => (decodeStringField v4).map (fun sn =>
    Source.mk d pg sc sn)))))))
  | _ => Except.error "invalid type: expected struct Source"

/-- serde `Vec<Source>`. -/
def decodeSourceList (j : Json) : Except String (List Source) :=
  match j with
  | Json.arr xs => xs.mapM decodeSource
  | _ => Except.error "invalid type: expected a sequence"

/- ## Command-surface result shaping -/

/-- Result shaping of `init_backend` (main.rs lines 120-132): on success,
`ready` is the literal `true` and the document list is decoded from
`data["documents"]` with every failure defaulted; on failure, the
envelope error or `"Init failed"`. -/
def init_backend_shape (response : BackendResponse) : Except String InitResponse :=
  if response.success then
    let data := response.data.getD (Json.obj [])
    let documents : List Document :=
      match decodeDocumentList ((jGet data "documents").getD (Json.arr [])) with
      | Except.ok ds => ds
      | Except.error _ => []
    Except.ok (InitResponse.mk true documents)
  else
    Except.error (response.error.getD "Init failed")

/-- Result shaping of `add_documents` (main.rs lines 144-152). -/
def add_documents_shape (response : BackendResponse) :
    Except String (List Document) :=
  if response.success then
    let data := response.data.getD (Json.obj [])
    Except.ok
      (match decodeDocumentList ((jGet data "documents").getD (Json.arr [])) with
       | Except.ok ds => ds
       | Except.error _ => [])
  else
    Except.error (response.error.getD "Failed to add documents")

/-- Result shaping of `ask_question` (main.rs lines 164-180). -/
def ask_question_shape (response : BackendResponse) :
    Except String AnswerResponse :=
  if response.success then
    let data := response.data.getD (Json.obj [])
    Except.ok (AnswerResponse.mk
      (((jGet data "answer").bind Json.as_str).getD "No answer")
      (match decodeSourceList ((jGet data "sources").getD (Json.arr [])) with
       | Except.ok ss => ss
       | Except.error _ => [])
      (((jGet data "confidence").bind Json.as_f64).getD 0))
  else
    Except.error (response.error.getD "Failed to get answer")

/-- Result shaping of `remove_document` (main.rs lines 192-196). -/
def remove_document_shape (response : BackendResponse) : Except String Unit :=
  if response.success then Except.ok ()
  else Except.error (response.error.getD "Failed to remove")

/-- Result shaping of `record_and_transcribe` (main.rs lines 208-216). -/
def record_and_transcribe_shape (response : BackendResponse) :
    Except String String :=
  if response.success then
    let data := response.data.getD (Json.obj [])
    Except.ok (((jGet data "transcription").bind Json.as_str).getD "")
  else
    Except.error (response.error.getD "Voice input failed")

/-- The `ask_question` command end to end (request construction at
main.rs lines 157-162 plus shaping). -/
def ask_question (question : String) (proc : Option Child) :
    Except String AnswerResponse × Option Child × List PipeEv :=
  match send_to_backend proc (BackendRequest.mk "ask" (some question) none none) with
  | (Except.ok resp, proc2, evs) => (ask_question_shape resp, proc2, evs)
  | (Except.error e, proc2, evs) => (Except.error e, proc2, evs)

/-- The `remove_document` command end to end (main.rs lines 184-197). -/
def remove_document (name : String) (proc : Option Child) :
    Except String Unit × Option Child × List PipeEv :=
  match send_to_backend proc (BackendRequest.mk "remove_document" none none (some name)) with
  | (Except.ok resp, proc2, evs) => (remove_document_shape resp, proc2, evs)
  | (Except.error e, proc2, evs) => (Except.error e, proc2, evs)

/- ## Concurrency model of the bridge

`send_to_backend` runs entirely under `backend.process.lock()` (main.rs
line 62); the `MutexGuard` lives to the end of the function, so the
request write and the response read of one exchange happen with the lock
held.  We model N callers each executing that program — acquire the lock,
write the full request line, read one full response line, release — and
record the order of write/read events on the shared channel. -/

/-- Program counter of one caller through `send_to_backend`. -/
inductive CallerPc where
  | idle
  | locked
  | wrote
  | got
  | released
deriving DecidableEq

/-- One observable channel event: which caller wrote its request line, or
read its response line. -/
inductive BridgeEv where
  | write (i : Nat)
  | read (i : Nat)

/-- Global state: the mutex owner, every caller's position, and the
sequence of channel events so far. -/
structure BridgeState (n : Nat) where
  lock : Option (Fin n)
  pc : Fin n → CallerPc
  trace : List BridgeEv

/-- Interleaving semantics: any caller may take its next enabled step.
The lock can only be acquired when free, and only the holder reaches the
write/read/release steps (its `pc` tracks that it is inside the guarded
region). -/
inductive BridgeStep {n : Nat} : BridgeState n → BridgeState n → Prop where
  | lockAcquire (s : BridgeState n) (i : Fin n) :
      s.lock = none → s.pc i = CallerPc.idle →
      BridgeStep s ⟨some i, Function.update s.pc i CallerPc.locked, s.trace⟩
  | writeReq (s : BridgeState n) (i : Fin n) :
      s.pc i = CallerPc.locked →
      BridgeStep s ⟨s.lock, Function.update s.pc i CallerPc.wrote,
        s.trace ++ [BridgeEv.write i.val]⟩
  | readResp (s : BridgeState n) (i : Fin n) :
      s.pc i = CallerPc.wrote →
      BridgeStep s ⟨s.lock, Function.update s.pc i CallerPc.got,
        s.trace ++ [BridgeEv.read i.val]⟩
  | lockRelease (s : BridgeState n) (i : Fin n) :
      s.pc i = CallerPc.got →
      BridgeStep s ⟨none, Function.update s.pc i CallerPc.released, s.trace⟩

/-- States reachable from the initial state (lock free, all callers idle,
empty trace). -/
inductive BridgeReachable {n : Nat} : BridgeState n → Prop where
  | start : BridgeReachable ⟨none, fun _ => CallerPc.idle, []⟩
  | next {s t : BridgeState n} :
      BridgeReachable s → BridgeStep s t → BridgeReachable t

/-- A trace consisting of completed exchanges: each write is immediately
followed by the same caller's read. -/
inductive FullyPaired : List BridgeEv → Prop where
  | nil : FullyPaired []
  | pair (i : Nat) (rest : List BridgeEv) :
      FullyPaired rest →
      FullyPaired (BridgeEv.write i :: BridgeEv.read i :: rest)

/-- The mutual-exclusion property of the channel trace: completed
write/read pairs, possibly ending in one pending write whose response has
not been read yet.  In particular no two writes interleave, and between a
caller's write and the next write by anyone stands exactly that caller's
read. -/
def ExchangeOk (t : List BridgeEv) : Prop :=
  FullyPaired t ∨ ∃ t2 i, t = t2 ++ [BridgeEv.write i] ∧ FullyPaired t2

/-- A caller strictly inside the guarded region. -/
def midRegion (p : CallerPc) : Prop :=
  p = CallerPc.locked ∨ p = CallerPc.wrote ∨ p = CallerPc.got

/- ## Helper lemmas -/

theorem string_data_append (a b : String) : (a ++ b).data = a.data ++ b.data := by
  cases a
  cases b
  rfl

theorem decodeStringList_map_str (ps : List String) :
    decodeStringList (ps.map Json.str) = Except.ok ps := by
  induction ps with
  | nil => rfl
  | cons h t ih => simp [decodeStringList, ih, Except.map]

theorem splitLine_no_newline {cs : List Char} (h : '\n' ∉ cs) :
    splitLine cs = (cs, []) := by
  induction cs with
  | nil => rfl
  | cons c rest ih =>
    have hc : ¬ c = '\n' := fun e => h (by simp [e])
    have hr : '\n' ∉ rest := fun m => h (List.mem_cons_of_mem _ m)
    simp only [splitLine, if_neg hc, ih hr]

theorem hexDigit_ne_nl {m : Nat} (h : m < 16) : hexDigit m ≠ '\n' := by
  interval_cases m <;> decide

theorem newline_not_mem_escapeChar (c : Char) : '\n' ∉ escapeChar c := by
  unfold escapeChar
  split_ifs with h1 h2 h3 h4 h5 h6 h7 h8
  · decide
  · decide
  · decide
  · decide
  · decide
  · decide
  · decide
  · have hdiv : c.toNat / 16 < 16 := Nat.div_lt_of_lt_mul (by omega)
    have hmod : c.toNat % 16 < 16 := Nat.mod_lt _ (by norm_num)
    intro hmem
    simp only [List.mem_cons, List.not_mem_nil, or_false] at hmem
    rcases hmem with h | h | h | h | h | h
    · exact absurd h (by decide)
    · exact absurd h (by decide)
    · exact absurd h (by decide)
    · exact absurd h (by decide)
    · exact hexDigit_ne_nl hdiv h.symm
    · exact hexDigit_ne_nl hmod h.symm
  · intro hmem
    simp only [List.mem_cons, List.not_mem_nil, or_false] at hmem
    apply h8
    rw [← hmem]
    decide

theorem newline_not_mem_escapeChars (cs : List Char) : '\n' ∉ escapeChars cs := by
  induction cs with
  | nil => simp [escapeChars]
  | cons c rest ih =>
    simp only [escapeChars, List.mem_append]
    intro hmem
    rcases hmem with h | h
    · exact newline_not_mem_escapeChar c h
    · exact ih h

/-- No newline survives JSON string escaping. -/
theorem noNL_escapeString (s : String) : '\n' ∉ (escapeString s).data := by
  intro hmem
  have h2 : '\n' ∈ '\"' :: (escapeChars s.data ++ ['\"']) := hmem
  simp only [List.mem_cons, List.mem_append, List.not_mem_nil, or_false] at h2
  rcases h2 with h | h | h
  · exact absurd h (by decide)
  · exact newline_not_mem_escapeChars s.data h
  · exact absurd h (by decide)

theorem noNL_append {a b : String} (ha : '\n' ∉ a.data) (hb : '\n' ∉ b.data) :
    '\n' ∉ (a ++ b).data := by
  rw [string_data_append]
  simp only [List.mem_append]
  intro hmem
  rcases hmem with h | h
  · exact ha h
  · exact hb h

theorem noNL_encode_strings_rest (xs : List String) :
    '\n' ∉ (encode_strings_rest xs).data := by
  induction xs with
  | nil => simp [encode_strings_rest]
  | cons x rest ih =>
    exact noNL_append (noNL_append (by decide) (noNL_escapeString x)) ih

theorem noNL_encode_string_array (xs : List String) :
    '\n' ∉ (encode_string_array xs).data := by
  cases xs with
  | nil => decide
  | cons x rest =>
    exact noNL_append
      (noNL_append (noNL_append (by decide) (noNL_escapeString x))
        (noNL_encode_strings_rest rest)) (by decide)

theorem noNL_question_part (q : Option String) : '\n' ∉ (question_part q).data := by
  cases q with
  | none => decide
  | some v => exact noNL_append (by decide) (noNL_escapeString v)

theorem noNL_paths_part (p : Option (List String)) : '\n' ∉ (paths_part p).data := by
  cases p with
  | none => decide
  | some v => exact noNL_append (by decide) (noNL_encode_string_array v)

theorem noNL_name_part (nm : Option String) : '\n' ∉ (name_part nm).data := by
  cases nm with
  | none => decide
  | some v => exact noNL_append (by decide) (noNL_escapeString v)

/-- The serialized request never contains an embedded newline, whatever
the field contents. -/
theorem noNL_request_json (r : BackendRequest) :
    '\n' ∉ (request_json r).data := by
  obtain ⟨c, q, p, nm⟩ := r
  exact noNL_append
    (noNL_append
      (noNL_append
        (noNL_append (noNL_append (by decide) (noNL_escapeString c))
          (noNL_question_part q))
        (noNL_paths_part p))
      (noNL_name_part nm))
    (by decide)

theorem fullyPaired_append_pair (i : Nat) {t : List BridgeEv}
    (h : FullyPaired t) :
    FullyPaired (t ++ [BridgeEv.write i, BridgeEv.read i]) := by
  induction h with
  | nil => exact FullyPaired.pair i [] FullyPaired.nil
  | pair j rest _ ih =>
    simpa only [List.cons_append] using FullyPaired.pair j _ ih

/-- Inductive invariant of the bridge transition system: any caller in the
guarded region holds the lock, and the trace is fully paired except for
the one pending write of a caller that has written but not yet read. -/
def BridgeInv {n : Nat} (s : BridgeState n) : Prop :=
  (∀ j, midRegion (s.pc j) → s.lock = some j) ∧
  ((∀ j, s.pc j ≠ CallerPc.wrote) ∧ FullyPaired s.trace ∨
   ∃ (i : Fin n) (t2 : List BridgeEv),
     s.pc i = CallerPc.wrote ∧ s.trace = t2 ++ [BridgeEv.write i.val] ∧
     FullyPaired t2)

theorem bridge_inv {n : Nat} {s : BridgeState n}
    (h : BridgeReachable s) : BridgeInv s := by
  induction h with
  | start =>
    refine ⟨?_, Or.inl ⟨fun j => by simp, FullyPaired.nil⟩⟩
    intro j hj
    rcases hj with h1 | h1 | h1 <;> simp at h1
  | next hr hstep ih =>
    rename_i s t
    obtain ⟨ihA, ihB⟩ := ih
    cases hstep with
    | lockAcquire i hlock hidle =>
      unfold BridgeInv
      dsimp only
      have hnomid : ∀ j, midRegion (s.pc j) → False := fun j hj => by
        have h2 := ihA j hj
        rw [hlock] at h2
        exact Option.noConfusion h2
      refine ⟨?_, Or.inl ⟨?_, ?_⟩⟩
      · intro j hj
        by_cases hji : j = i
        · rw [hji]
        · rw [Function.update_noteq hji] at hj
          exact (hnomid j hj).elim
      · intro j
        by_cases hji : j = i
        · rw [hji, Function.update_same]
          simp
        · rw [Function.update_noteq hji]
          intro hw
          exact hnomid j (Or.inr (Or.inl hw))
      · rcases ihB with ⟨_, hfp⟩ | ⟨k, t2, hk, _, _⟩
        · exact hfp
        · exact (hnomid k (Or.inr (Or.inl hk))).elim
    | writeReq i hlocked =>
      unfold BridgeInv
      dsimp only
      have hlock : s.lock = some i := ihA i (Or.inl hlocked)
      refine ⟨?_, Or.inr ⟨i, s.trace, ?_, rfl, ?_⟩⟩
      · intro j hj
        by_cases hji : j = i
        · rw [hji]
          exact hlock
        · rw [Function.update_noteq hji] at hj
          exact ihA j hj
      · rw [Function.update_same]
      · rcases ihB with ⟨_, hfp⟩ | ⟨k, t2, hk, _, _⟩
        · exact hfp
        · have hk2 : s.lock = some k := ihA k (Or.inr (Or.inl hk))
          rw [hlock] at hk2
          have hik : i = k := Option.some.inj hk2
          rw [← hik, hlocked] at hk
          exact absurd hk (by simp)
    | readResp i hwrote =>
      unfold BridgeInv
      dsimp only
      have hlock : s.lock = some i := ihA i (Or.inr (Or.inl hwrote))
      rcases ihB with ⟨hno, _⟩ | ⟨k, t2, hk, htr, hfp⟩
      · exact absurd hwrote (hno i)
      · have hk2 : s.lock = some k := ihA k (Or.inr (Or.inl hk))
        rw [hlock] at hk2
        have hki : i = k := Option.some.inj hk2
        refine ⟨?_, Or.inl ⟨?_, ?_⟩⟩
        · intro j hj
          by_cases hji : j = i
          · rw [hji]
            exact hlock
          · rw [Function.update_noteq hji] at hj
            exact ihA j hj
        · intro j
          by_cases hji : j = i
          · rw [hji, Function.update_same]
            simp
          · rw [Function.update_noteq hji]
            intro hw
            have h2 := ihA j (Or.inr (Or.inl hw))
            rw [hlock] at h2
            exact hji (Option.some.inj h2).symm
        · rw [htr, ← hki, List.append_assoc]
          exact fullyPaired_append_pair i.val hfp
    | lockRelease i hgot =>
      unfold BridgeInv
      dsimp only
      have hlock : s.lock = some i := ihA i (Or.inr (Or.inr hgot))
      have honlyi : ∀ j, midRegion (s.pc j) → j = i := fun j hj => by
        have h2 := ihA j hj
        rw [hlock] at h2
        exact (Option.some.inj h2).symm
      refine ⟨?_, Or.inl ⟨?_, ?_⟩⟩
      · intro j hj
        by_cases hji : j = i
        · rw [hji, Function.update_same] at hj
          rcases hj with h1 | h1 | h1 <;> simp at h1
        · rw [Function.update_noteq hji] at hj
          exact absurd (honlyi j hj) hji
      · intro j
        by_cases hji : j = i
        · rw [hji, Function.update_same]
          simp
        · rw [Function.update_noteq hji]
          intro hw
          exact hji (honlyi j (Or.inr (Or.inl hw)))
      · rcases ihB with ⟨_, hfp⟩ | ⟨k, t2, hk, _, _⟩
        · exact hfp
        · have hki := honlyi k (Or.inr (Or.inl hk))
          rw [hki, hgot] at hk
          exact absurd hk (by simp)

/- ## Claim theorems -/

/-- Claim C1: for N concurrent callers invoking the bridge, every
request/response exchange is mutually exclusive — in every reachable
state the channel trace consists of write/read pairs of one and the same
caller (possibly with one pending write whose read has not happened yet):
no caller's write interleaves with another exchange, and each write is
followed, before any other caller's write, by exactly one read for that
request, because the lock is held for the whole exchange. -/
theorem c1_bridge_mutual_exclusion {n : Nat} (s : BridgeState n)
    (h : BridgeReachable s) : ExchangeOk s.trace := by
  obtain ⟨_, hB⟩ := bridge_inv h
  rcases hB with ⟨_, hfp⟩ | ⟨i, t2, _, htr, hfp⟩
  · exact Or.inl hfp
  · exact Or.inr ⟨t2, i.val, htr, hfp⟩

/-- Witness for C1: a concrete interleaving of two callers — caller 0
completes a full exchange, then caller 1 acquires the lock and writes —
is reachable, and its trace satisfies the mutual-exclusion shape. -/
theorem c1_witness :
    ExchangeOk [BridgeEv.write 0, BridgeEv.read 0, BridgeEv.write 1] := by
  have h0 : BridgeReachable (n := 2) ⟨none, fun _ => CallerPc.idle, []⟩ :=
    BridgeReachable.start
  have h1 := BridgeReachable.next h0 (BridgeStep.lockAcquire _ 0 rfl rfl)
  have h2 := BridgeReachable.next h1 (BridgeStep.writeReq _ 0 (by decide))
  have h3 := BridgeReachable.next h2 (BridgeStep.readResp _ 0 (by decide))
  have h4 := BridgeReachable.next h3 (BridgeStep.lockRelease _ 0 (by decide))
  have h5 := BridgeReachable.next h4 (BridgeStep.lockAcquire _ 1 rfl (by decide))
  have h6 := BridgeReachable.next h5 (BridgeStep.writeReq _ 1 (by decide))
  have h7 := c1_bridge_mutual_exclusion _ h6
  simpa using h7

/-- Claim C4: a call with no stored worker process fails with the
`NotStarted` error (`"Backend not started"`), performs no pipe operation
at all, and leaves the handle state unchanged. -/
theorem c4_not_started (r : BackendRequest) :
    send_to_backend none r = (Except.error "Backend not started", none, []) :=
  rfl

/-- Claim C5: on a decoded envelope with `success = false`, every command
fails with exactly the envelope's error string (or its fixed default when
the error is absent) independently of the `data` field; on
`success = true`, every command's result is independent of the `error`
field. -/
theorem c5_envelope_error_discipline (d : Option Json) (e : Option String) :
    (ask_question_shape (BackendResponse.mk false d e) =
      Except.error (e.getD "Failed to get answer")) ∧
    (init_backend_shape (BackendResponse.mk false d e) =
      Except.error (e.getD "Init failed")) ∧
    (add_documents_shape (BackendResponse.mk false d e) =
      Except.error (e.getD "Failed to add documents")) ∧
    (remove_document_shape (BackendResponse.mk false d e) =
      Except.error (e.getD "Failed to remove")) ∧
    (record_and_transcribe_shape (BackendResponse.mk false d e) =
      Except.error (e.getD "Voice input failed")) ∧
    (∀ e2, ask_question_shape (BackendResponse.mk true d e) =
      ask_question_shape (BackendResponse.mk true d e2)) ∧
    (∀ e2, init_backend_shape (BackendResponse.mk true d e) =
      init_backend_shape (BackendResponse.mk true d e2)) ∧
    (∀ e2, add_documents_shape (BackendResponse.mk true d e) =
      add_documents_shape (BackendResponse.mk true d e2)) ∧
    (∀ e2, remove_document_shape (BackendResponse.mk true d e) =
      remove_document_shape (BackendResponse.mk true d e2)) ∧
    (∀ e2, record_and_transcribe_shape (BackendResponse.mk true d e) =
      record_and_transcribe_shape (BackendResponse.mk true d e2)) := by
  refine ⟨rfl, rfl, rfl, rfl, rfl, ?_, ?_, ?_, ?_, ?_⟩ <;> intro e2 <;> rfl

/-- Claim C6: an `ask` success with an empty data object yields the
placeholder answer, an empty source list and confidence 0; in general a
success substitutes each command's default for an absent sub-field
(absent document list → empty list, absent transcription → empty
string). -/
theorem c6_success_defaults :
    (ask_question_shape (BackendResponse.mk true (some (Json.obj [])) none) =
      Except.ok (AnswerResponse.mk "No answer" [] 0)) ∧
    (record_and_transcribe_shape (BackendResponse.mk true (some (Json.obj [])) none) =
      Except.ok "") ∧
    (∀ (d : Json) (e : Option String), jGet d "documents" = none →
      init_backend_shape (BackendResponse.mk true (some d) e) =
        Except.ok (InitResponse.mk true []) ∧
      add_documents_shape (BackendResponse.mk true (some d) e) =
        Except.ok []) ∧
    (∀ (d : Json) (e : Option String), jGet d "transcription" = none →
      record_and_transcribe_shape (BackendResponse.mk true (some d) e) =
        Except.ok "") := by
  refine ⟨rfl, rfl, ?_, ?_⟩
  · intro d e h
    constructor
    · simp [init_backend_shape, h]
      rfl
    · simp [add_documents_shape, h]
      rfl
  · intro d e h
    simp [record_and_transcribe_shape, h]

/-- Witness for C6's conditional parts at the empty data object. -/
theorem c6_witness :
    init_backend_shape (BackendResponse.mk true (some (Json.obj [])) none) =
      Except.ok (InitResponse.mk true []) ∧
    add_documents_shape (BackendResponse.mk true (some (Json.obj [])) none) =
      Except.ok [] :=
  c6_success_defaults.2.2.1 (Json.obj []) none rfl

/-- Claim C10: whenever the init envelope reports success, the shaped
result's readiness flag is the literal `true` — it is never derived from
the envelope's data, so a successful initialize can never produce
`ready = false`. -/
theorem c10_ready_always_true :
    (∀ (d : Option Json) (e : Option String), ∃ docs,
      init_backend_shape (BackendResponse.mk true d e) =
        Except.ok (InitResponse.mk true docs)) ∧
    (∀ (resp : BackendResponse) (out : InitResponse),
      init_backend_shape resp = Except.ok out → out.ready = true) := by
  constructor
  · intro d e
    exact ⟨_, rfl⟩
  · intro resp out h
    by_cases hs : resp.success
    · simp [init_backend_shape, hs] at h
      rw [← h]
    · simp [init_backend_shape, hs] at h

/-- Witness for C10's conditional part. -/
theorem c10_witness : (InitResponse.mk true []).ready = true :=
  c10_ready_always_true.2 (BackendResponse.mk true none none)
    (InitResponse.mk true []) rfl

/-- Claim C2 counterexample: with the worker's output stream closed before
any full line arrived (no bytes pending), the call does fail — but with
the parse-error message of the malformed-frame kind (prefix
`"Parse error: "`, the `serde_json` failure spliced in), not with any
distinct transport-closed error: the code has no `TransportClosed`
error path on end-of-stream, because `read_line` reports end-of-stream as
a successful empty read. -/
theorem c2_counterexample :
    (send_to_backend (some (Child.mk (some []) (some [])))
        (BackendRequest.mk "ask" (some "q") none none)).1 =
      Except.error "Parse error: EOF while parsing a value - Response: " ∧
    List.isPrefixOf "Parse error: ".data
      "Parse error: EOF while parsing a value - Response: ".data = true :=
  ⟨rfl, by decide⟩

/-- Claim C2 as amended: when the worker closes its output stream before a
full newline-terminated line arrives, `read_line` returns the partial
data without error and the pending call fails (it does not block) with
the malformed-frame parse error carrying that partial line — provided the
partial data does not itself parse as a valid envelope — rather than with
a distinct `TransportClosed` error. -/
theorem c2_amended_eof_parse_error (inBuf outBuf : List Char)
    (r : BackendRequest) (e : String)
    (hnl : '\n' ∉ outBuf)
    (hp : backend_response_from_str (String.mk outBuf) = Except.error e) :
    (send_to_backend (some (Child.mk (some inBuf) (some outBuf))) r).1 =
      Except.error ("Parse error: " ++ e ++ " - Response: " ++ String.mk outBuf) := by
  have hs := splitLine_no_newline hnl
  simp [send_to_backend, hs, hp]

/-- Witness for the amended C2 at a concrete truncated stream. -/
theorem c2_amended_witness :
    (send_to_backend (some (Child.mk (some []) (some "x".data)))
        (BackendRequest.mk "init" none none none)).1 =
      Except.error ("Parse error: " ++ "expected value" ++ " - Response: " ++
        String.mk "x".data) :=
  c2_amended_eof_parse_error [] "x".data (BackendRequest.mk "init" none none none)
    "expected value" (by decide) rfl

/-- Claim C3: for every request (any command tag, any combination of
populated optional fields), decoding the encoded form reproduces the
command tag and every populated optional field exactly, and every absent
field stays absent in the encoding — its key is not present at all, so it
is neither null nor empty. -/
theorem c3_request_roundtrip (c : String) (q : Option String)
    (p : Option (List String)) (nm : Option String) :
    BackendRequest.from_json (BackendRequest.to_json (BackendRequest.mk c q p nm)) =
      Except.ok (BackendRequest.mk c q p nm) ∧
    jGet (BackendRequest.to_json (BackendRequest.mk c none p nm)) "question" = none ∧
    jGet (BackendRequest.to_json (BackendRequest.mk c q none nm)) "paths" = none ∧
    jGet (BackendRequest.to_json (BackendRequest.mk c q p none)) "name" = none := by
  refine ⟨?_, ?_, ?_, ?_⟩ <;>
    cases q <;> cases p <;> cases nm <;>
      simp [BackendRequest.to_json, BackendRequest.from_json, jGet, jLookup,
        decodeStringList_map_str, Except.bind, Except.map]

/-- Claim C7: whenever the response line read from the worker fails to
decode as the envelope, the resulting error message is the parse-error
format string, which contains both the underlying parse diagnostic and
the offending raw line as substrings. -/
theorem c7_malformed_frame_message (inBuf outBuf : List Char)
    (r : BackendRequest) (e : String)
    (h : backend_response_from_str (String.mk (splitLine outBuf).1) =
      Except.error e) :
    (send_to_backend (some (Child.mk (some inBuf) (some outBuf))) r).1 =
      Except.error ("Parse error: " ++ e ++ " - Response: " ++
        String.mk (splitLine outBuf).1) ∧
    e.data <:+: ("Parse error: " ++ e ++ " - Response: " ++
      String.mk (splitLine outBuf).1).data ∧
    (String.mk (splitLine outBuf).1).data <:+:
      ("Parse error: " ++ e ++ " - Response: " ++
        String.mk (splitLine outBuf).1).data := by
  refine ⟨?_, ?_, ?_⟩
  · simp [send_to_backend, h]
  · refine ⟨"Parse error: ".data,
      (" - Response: " ++ String.mk (splitLine outBuf).1).data, ?_⟩
    simp [string_data_append, List.append_assoc]
  · refine ⟨("Parse error: " ++ e ++ " - Response: ").data, [], ?_⟩
    simp [string_data_append, List.append_assoc]

/-- Witness for C7 at a concrete garbage response line. -/
theorem c7_witness :
    (send_to_backend (some (Child.mk (some []) (some "garbage\n".data)))
        (BackendRequest.mk "init" none none none)).1 =
      Except.error ("Parse error: " ++ "expected value" ++ " - Response: " ++
        String.mk (splitLine "garbage\n".data).1) :=
  (c7_malformed_frame_message [] "garbage\n".data
    (BackendRequest.mk "init" none none none) "expected value" rfl).1

/-- Claim C8: for every request — including ones whose string fields
contain newline characters — the encoded form is a single line with no
embedded newline, and the bridge writes that line followed by exactly one
newline, then flushes, and only then reads, as witnessed by the ordered
pipe-event list of the exchange. -/
theorem c8_single_line_write_flush_read (c : String) (q : Option String)
    (p : Option (List String)) (nm : Option String) (inBuf outBuf : List Char) :
    '\n' ∉ (request_json (BackendRequest.mk c q p nm)).data ∧
    (send_to_backend (some (Child.mk (some inBuf) (some outBuf)))
        (BackendRequest.mk c q p nm)).2 =
      (some (Child.mk
          (some (inBuf ++ (request_json (BackendRequest.mk c q p nm) ++ "\n").data))
          (some (splitLine outBuf).2)),
        [PipeEv.write (request_json (BackendRequest.mk c q p nm) ++ "\n"),
         PipeEv.flush,
         PipeEv.read (String.mk (splitLine outBuf).1)]) := by
  constructor
  · exact noNL_request_json (BackendRequest.mk c q p nm)
  · cases hb : backend_response_from_str (String.mk (splitLine outBuf).1) <;>
      simp [send_to_backend, hb]

/-- Claim C9: when a success envelope carries a sub-field that is present
but of the wrong shape (sources or documents not a valid record array,
confidence not a number, answer not a string), the commands silently
substitute the same defaults used for absent fields instead of failing. -/
theorem c9_malformed_subfields_default
    (e : Option String) (d d2 va vs vc vd : Json)
    (ha : jGet d "answer" = some va) (ha2 : Json.as_str va = none)
    (hs : jGet d "sources" = some vs)
    (hs2 : ∃ msg, decodeSourceList vs = Except.error msg)
    (hc : jGet d "confidence" = some vc) (hc2 : Json.as_f64 vc = none)
    (hd : jGet d2 "documents" = some vd)
    (hd2 : ∃ msg, decodeDocumentList vd = Except.error msg) :
    ask_question_shape (BackendResponse.mk true (some d) e) =
      Except.ok (AnswerResponse.mk "No answer" [] 0) ∧
    init_backend_shape (BackendResponse.mk true (some d2) e) =
      Except.ok (InitResponse.mk true []) ∧
    add_documents_shape (BackendResponse.mk true (some d2) e) =
      Except.ok [] := by
  obtain ⟨m1, hm1⟩ := hs2
  obtain ⟨m2, hm2⟩ := hd2
  refine ⟨?_, ?_, ?_⟩
  · simp [ask_question_shape, ha, ha2, hs, hm1, hc, hc2]
  · simp [init_backend_shape, hd, hm2]
  · simp [add_documents_shape, hd, hm2]

/-- Witness for C9 at concretely malformed sub-fields. -/
theorem c9_witness :
    ask_question_shape (BackendResponse.mk true
        (some (Json.obj [("answer", Json.num 1), ("sources", Json.num 2),
          ("confidence", Json.str "x")])) none) =
      Except.ok (AnswerResponse.mk "No answer" [] 0) ∧
    init_backend_shape (BackendResponse.mk true
        (some (Json.obj [("documents", Json.str "bad")])) none) =
      Except.ok (InitResponse.mk true []) ∧
    add_documents_shape (BackendResponse.mk true
        (some (Json.obj [("documents", Json.str "bad")])) none) =
      Except.ok [] :=
  c9_malformed_subfields_default none
    (Json.obj [("answer", Json.num 1), ("sources", Json.num 2),
      ("confidence", Json.str "x")])
    (Json.obj [("documents", Json.str "bad")])
    (Json.num 1) (Json.num 2) (Json.str "x") (Json.str "bad")
    rfl rfl rfl ⟨"invalid type: expected a sequence", rfl⟩ rfl rfl rfl
    ⟨"invalid type: expected a sequence", rfl⟩

end DocQA
